import Mathlib

/-!
Shallow embedding of the feature-flag evaluation core of the
payload-feature-flags repository.

The server-side helpers (`isUserInRollout`, `getUserVariant`) live in the
RSC utilities module; the client-side helpers (`checkUserInRollout`,
`selectVariantForUser`, and the hooks `useRolloutCheck` / `useABTest`)
live in the client utilities module.  Both share the same textual hash
and cumulative-weight logic, duplicated in the source; each copy is
embedded under its own name so that their agreement is a theorem, not a
definition.

JavaScript semantics captured here:
- `userId.split('')` followed by `charCodeAt(0)` yields UTF-16 code
  units (surrogates separately for astral code points);
- `acc << 5` converts `acc` to a signed 32-bit integer and wraps the
  shifted value to 32 bits, while the subsequent `- acc + code` are
  exact double-precision operations on integers far below 2^53, so the
  accumulator is truncated only at the shift;
- `!x` on an optional number is true for `undefined` and `0`;
  `x || d` replaces both `undefined` and `0` by the default `d`.
-/

namespace PayloadFeatureFlags

/-- UTF-16 code units of one character, as JavaScript's `split('')` +
`charCodeAt(0)` produce them: BMP code points give themselves, astral
code points give their surrogate pair. -/
def utf16Units (c : Char) : List Nat :=
  let n := c.toNat
  if n < 0x10000 then [n]
  else [0xD800 + (n - 0x10000) / 0x400, 0xDC00 + (n - 0x10000) % 0x400]

/-- The sequence of UTF-16 code units of a string. -/
def charCodes (s : String) : List Nat :=
  (s.data.map utf16Units).flatten

/-- JavaScript `ToInt32`: wrap an integer into the signed 32-bit range
`[-2^31, 2^31)`. -/
def toInt32 (n : Int) : Int :=
  let m := n % (2 ^ 32 : Int)
  if m < 2 ^ 31 then m else m - 2 ^ 32

/-- One step of the hash in the server-side RSC module:
`((acc << 5) - acc) + char.charCodeAt(0)`.  The shift truncates to a
signed 32-bit value; the subtraction and addition are exact. -/
def serverHashStep (acc : Int) (code : Nat) : Int :=
  toInt32 (toInt32 acc * 32) - acc + code

/-- The hash accumulated by `isUserInRollout` / `getUserVariant`
(server-side copy): `userId.split('').reduce(..., 0)`. -/
def serverHash (codes : List Nat) : Int :=
  codes.foldl serverHashStep 0

/-- `Math.abs(hash) % 100` on the server-side copy. -/
def serverBucket (userId : String) : Nat :=
  (serverHash (charCodes userId)).natAbs % 100

/-- One step of the hash in the client-side utilities module:
textually the same reduce body as the server copy. -/
def clientHashStep (acc : Int) (code : Nat) : Int :=
  toInt32 (toInt32 acc * 32) - acc + code

/-- The hash accumulated by `checkUserInRollout` / `selectVariantForUser`
(client-side copy). -/
def clientHash (codes : List Nat) : Int :=
  codes.foldl clientHashStep 0

/-- `Math.abs(hash) % 100` on the client-side copy. -/
def clientBucket (userId : String) : Nat :=
  (clientHash (charCodes userId)).natAbs % 100

/-- Reference Bucketer hash described by the spec: the accumulator is
masked to a signed 32-bit value after every multiply-add,
`h = (h * 31 + code) mod 2^32` interpreted as signed 32-bit. -/
def specHash (codes : List Nat) : Int :=
  codes.foldl (fun h c => toInt32 (h * 31 + c)) 0

/-- Bucket of the spec's reference recurrence: absolute value of the
final 32-bit hash, reduced modulo 100. -/
def specBucket (userId : String) : Nat :=
  (specHash (charCodes userId)).natAbs % 100

/-- One experiment arm: `{ name: string; weight: number }`.  Weights in
the source are JavaScript numbers used only in additions and
comparisons; the configurations the claims quantify over carry integer
weights, embedded exactly. -/
structure Variant where
  name : String
  weight : Int
deriving Repr, DecidableEq

/-- A flag document as the evaluation helpers see it: `enabled`,
optional `rolloutPercentage`, optional `variants` array. -/
structure FlagConfig where
  enabled : Bool
  rolloutPercentage : Option Int
  variants : Option (List Variant)
deriving Repr, DecidableEq

/-- JavaScript falsiness of `flag.rolloutPercentage`: `!x` is true when
the field is `undefined` or `0`. -/
def rolloutFalsy : Option Int → Bool
  | none => true
  | some p => p == 0

/-- `flag.rolloutPercentage || 100`: both `undefined` and `0` are
replaced by the default `100`. -/
def rolloutOrDefault : Option Int → Int
  | none => 100
  | some p => if p == 0 then 100 else p

/-- Server-side `isUserInRollout` (the flag already looked up):
returns false when the flag is disabled, true when `rolloutPercentage`
is falsy or exactly 100, otherwise compares the bucket with the
percentage. -/
def isUserInRollout (flag : FlagConfig) (userId : String) : Bool :=
  if !flag.enabled then false
  else if rolloutFalsy flag.rolloutPercentage || flag.rolloutPercentage == some 100 then
    true
  else
    decide ((serverBucket userId : Int) < flag.rolloutPercentage.getD 0)

/-- The `for (const variant of variants)` loop of the server-side
`getUserVariant`: accumulate weights and return the first variant whose
running cumulative sum strictly exceeds the bucket; `none` when the
loop falls through. -/
def serverWalk : List Variant → Nat → Int → Option String
  | [], _, _ => none
  | v :: rest, bucket, cumulative =>
    let c := cumulative + v.weight
    if (bucket : Int) < c then some v.name else serverWalk rest bucket c

/-- Server-side fallback `flag.variants[0]?.name || null`: the head's
name unless the list is empty or that name is the empty string (falsy). -/
def serverFallback (variants : List Variant) : Option String :=
  match variants.head? with
  | none => none
  | some v => if v.name = "" then none else some v.name

/-- Server-side `getUserVariant` (the flag already looked up): `null`
when the flag is disabled or `variants` is absent or empty, otherwise
the cumulative-weight walk with first-variant fallback. -/
def getUserVariant (flag : FlagConfig) (userId : String) : Option String :=
  if !flag.enabled then none
  else
    match flag.variants with
    | none => none
    | some vs =>
      if vs.length == 0 then none
      else
        let bucket := serverBucket userId
        match serverWalk vs bucket 0 with
        | some name => some name
        | none => serverFallback vs

/-- The cumulative-weight loop of the client-side
`selectVariantForUser`: textually the same loop as the server copy. -/
def clientWalk : List Variant → Nat → Int → Option String
  | [], _, _ => none
  | v :: rest, bucket, cumulative =>
    let c := cumulative + v.weight
    if (bucket : Int) < c then some v.name else clientWalk rest bucket c

/-- Client-side fallback `variants[0]?.name || null`. -/
def clientFallback (variants : List Variant) : Option String :=
  match variants.head? with
  | none => none
  | some v => if v.name = "" then none else some v.name

/-- Client-side `selectVariantForUser`. -/
def selectVariantForUser (userId : String) (variants : List Variant) : Option String :=
  if variants.length == 0 then none
  else
    let bucket := clientBucket userId
    match clientWalk variants bucket 0 with
    | some name => some name
    | none => clientFallback variants

/-- Client-side `checkUserInRollout(userId, percentage)`. -/
def checkUserInRollout (userId : String) (percentage : Int) : Bool :=
  if percentage ≥ 100 then true
  else if percentage ≤ 0 then false
  else decide ((clientBucket userId : Int) < percentage)

/-- The decision computed by the `useRolloutCheck` hook once the flag
has loaded: `flag?.enabled ? checkUserInRollout(userId,
flag.rolloutPercentage || 100) : false`. -/
def useRolloutCheck (flag : Option FlagConfig) (userId : String) : Bool :=
  match flag with
  | none => false
  | some f =>
    if f.enabled then checkUserInRollout userId (rolloutOrDefault f.rolloutPercentage)
    else false

/-- The variant computed by the `useABTest` hook once the flag has
loaded: `flag?.enabled && flag.variants ?
selectVariantForUser(userId, flag.variants) : null` (an empty array is
truthy, so it reaches `selectVariantForUser`, which returns `null` for
it). -/
def useABTestVariant (flag : Option FlagConfig) (userId : String) : Option String :=
  match flag with
  | none => none
  | some f =>
    if f.enabled then
      match f.variants with
      | none => none
      | some vs => selectVariantForUser userId vs
    else none

/-- Running sum of the weights of a variant list. -/
def weightSum (vs : List Variant) : Int :=
  (vs.map Variant.weight).sum

/-! ### Helper lemmas -/

lemma weightSum_nil : weightSum [] = 0 := rfl

lemma weightSum_cons (v : Variant) (vs : List Variant) :
    weightSum (v :: vs) = v.weight + weightSum vs := by
  simp [weightSum]

/-- The two textually duplicated hash copies agree. -/
lemma clientHash_eq_serverHash (codes : List Nat) :
    clientHash codes = serverHash codes := rfl

/-- The two textually duplicated bucket computations agree. -/
lemma clientBucket_eq_serverBucket (u : String) :
    clientBucket u = serverBucket u := rfl

/-- The two textually duplicated cumulative-weight loops agree. -/
lemma clientWalk_eq_serverWalk (vs : List Variant) (b : Nat) (c : Int) :
    clientWalk vs b c = serverWalk vs b c := by
  induction vs generalizing c with
  | nil => rfl
  | cons v rest ih =>
    rw [clientWalk, serverWalk]
    split
    · rfl
    · exact ih _

/-- The two textually duplicated fallbacks agree. -/
lemma clientFallback_eq_serverFallback (vs : List Variant) :
    clientFallback vs = serverFallback vs := rfl

/-- If the bucket is not strictly below the cumulative weight of any
nonempty prefix (offset by the starting accumulator), the loop falls
through. -/
lemma serverWalk_eq_none (b : Nat) :
    ∀ (vs : List Variant) (c : Int),
      (∀ k, k < vs.length → ¬ ((b : Int) < c + weightSum (vs.take (k + 1)))) →
      serverWalk vs b c = none := by
  intro vs
  induction vs with
  | nil => intro c _; rfl
  | cons v rest ih =>
    intro c h
    have h0 : ¬ ((b : Int) < c + v.weight) := by
      have := h 0 (by simp)
      simpa [weightSum_cons, weightSum_nil] using this
    rw [serverWalk]
    rw [if_neg h0]
    apply ih
    intro k hk
    have := h (k + 1) (by simpa using Nat.succ_lt_succ hk)
    rw [List.take_succ_cons, weightSum_cons] at this
    intro hc
    exact this (by linarith)

/-- When the loop selects a variant, it returns that variant's raw name. -/
lemma serverWalk_isSome_or_none (vs : List Variant) (b : Nat) (c : Int) :
    (∃ n, serverWalk vs b c = some n) ∨ serverWalk vs b c = none := by
  cases hw : serverWalk vs b c with
  | none => exact Or.inr rfl
  | some n => exact Or.inl ⟨n, rfl⟩

/-- Wrapping to the signed 32-bit range preserves the value mod `2^32`. -/
lemma toInt32_modeq (n : Int) : toInt32 n ≡ n [ZMOD (2 ^ 32)] := by
  show toInt32 n % 2 ^ 32 = n % 2 ^ 32
  unfold toInt32
  dsimp only
  split
  · omega
  · omega

/-- One hash step of the source is congruent mod `2^32` to one step of
the spec's fully masked recurrence. -/
lemma serverHashStep_modeq (a b : Int) (c : Nat) (h : a ≡ b [ZMOD (2 ^ 32)]) :
    serverHashStep a c ≡ toInt32 (b * 31 + c) [ZMOD (2 ^ 32)] := by
  unfold serverHashStep
  have h2 : toInt32 (toInt32 a * 32) ≡ a * 32 [ZMOD (2 ^ 32)] :=
    (toInt32_modeq _).trans ((toInt32_modeq a).mul_right 32)
  have h3 : toInt32 (toInt32 a * 32) - a + (c : Int) ≡ a * 32 - a + c [ZMOD (2 ^ 32)] :=
    (h2.sub (Int.ModEq.refl a)).add (Int.ModEq.refl (c : Int))
  have h4 : a * 32 - a + (c : Int) ≡ b * 31 + c [ZMOD (2 ^ 32)] := by
    have e : a * 32 - a + (c : Int) = a * 31 + c := by ring
    rw [e]
    exact (h.mul_right 31).add (Int.ModEq.refl _)
  exact (h3.trans h4).trans (toInt32_modeq _).symm

/-- The folded source hash is congruent mod `2^32` to the folded spec
recurrence, for congruent starting accumulators. -/
lemma foldl_hash_modeq :
    ∀ (codes : List Nat) (a b : Int), a ≡ b [ZMOD (2 ^ 32)] →
      codes.foldl serverHashStep a ≡
        codes.foldl (fun h c => toInt32 (h * 31 + c)) b [ZMOD (2 ^ 32)] := by
  intro codes
  induction codes with
  | nil => intro a b h; simpa using h
  | cons c cs ih =>
    intro a b h
    simp only [List.foldl_cons]
    exact ih _ _ (serverHashStep_modeq a b c h)

/-- Server variant selection coincides with the client helper whenever
the flag is enabled and carries a variant list. -/
lemma getUserVariant_eq_select (flag : FlagConfig) (u : String)
    (he : flag.enabled = true) (vs : List Variant) (hv : flag.variants = some vs) :
    getUserVariant flag u = selectVariantForUser u vs := by
  unfold getUserVariant selectVariantForUser
  rw [he, hv]
  simp only [Bool.not_true, Bool.false_eq_true, if_false,
    clientBucket_eq_serverBucket, clientWalk_eq_serverWalk,
    clientFallback_eq_serverFallback]

/-- A non-empty variant list whose head has a non-empty name never
selects to none: either the loop picks a variant or the fallback
returns the head's name. -/
lemma select_ne_none (u : String) (v : Variant) (rest : List Variant)
    (hv : v.name ≠ "") : selectVariantForUser u (v :: rest) ≠ none := by
  unfold selectVariantForUser
  cases hw : clientWalk (v :: rest) (clientBucket u) 0 with
  | some n => simp [hw]
  | none => simp [hw, clientFallback, hv]

/-! ### Claims -/

/-- C1: the spec requires `rolloutPercentage = 0` to exclude every user,
but the code returns true on the failing input (enabled flag,
`rolloutPercentage` 0, userId "alice"): the server helper's
`!flag.rolloutPercentage` treats 0 as absent and reports full rollout,
and the client hook's `flag.rolloutPercentage || 100` replaces 0 by 100
before calling `checkUserInRollout`. -/
theorem c1_zero_rollout_code_returns_true :
    isUserInRollout ⟨true, some 0, none⟩ "alice" = true ∧
    useRolloutCheck (some ⟨true, some 0, none⟩) "alice" = true := by
  exact ⟨rfl, rfl⟩

set_option maxRecDepth 4000 in
/-- C2 counterexample: on the string "2y0cz0c" the source hash gives
bucket 85 (its final accumulator lies outside the signed 32-bit range)
while the spec's recurrence, masked after every multiply-add, gives
bucket 11 — so the source bucket is not that of the fully masked
hash. -/
theorem c2_bucketer_mask_counterexample :
    serverBucket "2y0cz0c" = 85 ∧ clientBucket "2y0cz0c" = 85 ∧
    specBucket "2y0cz0c" = 11 ∧
    ¬ (serverBucket "2y0cz0c" = specBucket "2y0cz0c") := by
  refine ⟨by decide, by decide, by decide, by decide⟩

/-- C2 (amended): the source hash agrees with the reference recurrence
`h = (h * 31 + code) mod 2^32` only modulo `2^32`: the accumulator is
truncated to 32 bits at the shift alone and the remaining subtraction
and addition are exact, so the final hash can leave the signed 32-bit
range; the bucket is the absolute value of that untruncated final hash
reduced modulo 100. -/
theorem c2_bucketer_hash_congruent (s : String) :
    serverHash (charCodes s) ≡ specHash (charCodes s) [ZMOD (2 ^ 32)] ∧
    clientHash (charCodes s) ≡ specHash (charCodes s) [ZMOD (2 ^ 32)] ∧
    serverBucket s = (serverHash (charCodes s)).natAbs % 100 ∧
    clientBucket s = (clientHash (charCodes s)).natAbs % 100 := by
  refine ⟨?_, ?_, rfl, rfl⟩
  · exact foldl_hash_modeq _ 0 0 (Int.ModEq.refl 0)
  · rw [clientHash_eq_serverHash]
    exact foldl_hash_modeq _ 0 0 (Int.ModEq.refl 0)

/-- C3: for every input string — empty, long, or non-ASCII — the
computed bucket `Math.abs(hash) % 100` is an integer in `[0, 100)`, in
both the server and the client copy. -/
theorem c3_bucket_range (s : String) :
    0 ≤ (serverBucket s : Int) ∧ (serverBucket s : Int) < 100 ∧
    0 ≤ (clientBucket s : Int) ∧ (clientBucket s : Int) < 100 := by
  refine ⟨Int.natCast_nonneg _, ?_, Int.natCast_nonneg _, ?_⟩
  · exact_mod_cast Nat.mod_lt _ (by norm_num)
  · exact_mod_cast Nat.mod_lt _ (by norm_num)

/-- C4: a disabled flag yields rollout-decision false and variant none
in both the server helpers and the client hooks, regardless of the
rollout percentage and of the variant list. -/
theorem c4_disabled_dominance (flag : FlagConfig) (u : String)
    (h : flag.enabled = false) :
    isUserInRollout flag u = false ∧ getUserVariant flag u = none ∧
    useRolloutCheck (some flag) u = false ∧
    useABTestVariant (some flag) u = none := by
  refine ⟨?_, ?_, ?_, ?_⟩
  · simp [isUserInRollout, h]
  · simp [getUserVariant, h]
  · simp [useRolloutCheck, h]
  · simp [useABTestVariant, h]

/-- C4 witness: a disabled flag with rollout percentage 100 and a
variant list, evaluated for user "bob". -/
theorem c4_disabled_dominance_witness :
    isUserInRollout ⟨false, some 100, some [⟨"A", 50⟩]⟩ "bob" = false ∧
    getUserVariant ⟨false, some 100, some [⟨"A", 50⟩]⟩ "bob" = none ∧
    useRolloutCheck (some ⟨false, some 100, some [⟨"A", 50⟩]⟩) "bob" = false ∧
    useABTestVariant (some ⟨false, some 100, some [⟨"A", 50⟩]⟩) "bob" = none :=
  c4_disabled_dominance _ "bob" rfl

/-- C5: for an enabled flag with a non-empty variant list of non-empty
names, a user whose bucket is not strictly below any running cumulative
prefix weight gets the first variant's name from the fallback, never
none — in both the server and the client copy. -/
theorem c5_fallback_first_variant (v : Variant) (rest : List Variant)
    (u : String) (rp : Option Int)
    (hnames : ∀ w ∈ v :: rest, w.name ≠ "")
    (hmiss : ∀ k, k < (v :: rest).length →
      ¬ ((serverBucket u : Int) < weightSum ((v :: rest).take (k + 1)))) :
    getUserVariant ⟨true, rp, some (v :: rest)⟩ u = some v.name ∧
    selectVariantForUser u (v :: rest) = some v.name := by
  have hwalk : serverWalk (v :: rest) (serverBucket u) 0 = none := by
    apply serverWalk_eq_none
    intro k hk
    simpa using hmiss k hk
  have hfb : serverFallback (v :: rest) = some v.name := by
    have hv : v.name ≠ "" := hnames v (List.mem_cons_self v rest)
    simp [serverFallback, hv]
  have hclient : selectVariantForUser u (v :: rest) = some v.name := by
    unfold selectVariantForUser
    simp only [clientBucket_eq_serverBucket, clientWalk_eq_serverWalk, hwalk,
      clientFallback_eq_serverFallback, hfb]
    simp
  exact ⟨by rw [getUserVariant_eq_select _ u rfl _ rfl]; exact hclient, hclient⟩

set_option maxRecDepth 8000 in
/-- C5 witness: enabled flag whose single variant "A" has weight 10,
user "alice" with bucket 40, beyond the covered range. -/
theorem c5_fallback_first_variant_witness :
    getUserVariant ⟨true, none, some [⟨"A", 10⟩]⟩ "alice" = some "A" ∧
    selectVariantForUser "alice" [⟨"A", 10⟩] = some "A" :=
  c5_fallback_first_variant ⟨"A", 10⟩ [] "alice" none
    (by
      intro w hw
      simp only [List.mem_singleton] at hw
      subst hw
      decide)
    (by
      intro k hk
      simp only [List.length_cons, List.length_nil] at hk
      have hk0 : k = 0 := by omega
      subst hk0
      decide)

/-- C6: an enabled flag whose variant list holds exactly one variant
with a non-empty name resolves to that variant's name for every weight
value and every userId, in both the server and the client copy. -/
theorem c6_single_variant_resolution (v : Variant) (u : String)
    (rp : Option Int) (hname : v.name ≠ "") :
    getUserVariant ⟨true, rp, some [v]⟩ u = some v.name ∧
    selectVariantForUser u [v] = some v.name := by
  have hclient : selectVariantForUser u [v] = some v.name := by
    unfold selectVariantForUser
    simp only [clientBucket_eq_serverBucket, clientWalk_eq_serverWalk]
    by_cases hb : ((serverBucket u : Int) < 0 + v.weight)
    · rw [serverWalk, if_pos hb]
      simp
    · rw [serverWalk, if_neg hb]
      simp [serverWalk, clientFallback_eq_serverFallback, serverFallback, hname]
  exact ⟨by rw [getUserVariant_eq_select _ u rfl _ rfl]; exact hclient, hclient⟩

/-- C6 witness: the single variant "only" with weight 10 under an
enabled flag, user "zed". -/
theorem c6_single_variant_resolution_witness :
    getUserVariant ⟨true, some 50, some [⟨"only", 10⟩]⟩ "zed" = some "only" ∧
    selectVariantForUser "zed" [⟨"only", 10⟩] = some "only" :=
  c6_single_variant_resolution ⟨"only", 10⟩ "zed" (some 50) (by decide)

/-- C7: an enabled flag whose rolloutPercentage is absent or equal to
100 yields a true rollout decision for every userId (the empty string
included), in the server helper and the client hook. -/
theorem c7_full_rollout (flag : FlagConfig) (u : String)
    (he : flag.enabled = true)
    (hp : flag.rolloutPercentage = none ∨ flag.rolloutPercentage = some 100) :
    isUserInRollout flag u = true ∧ useRolloutCheck (some flag) u = true := by
  obtain ⟨e, rp, vs⟩ := flag
  cases he
  rcases hp with hp | hp <;> cases hp <;> exact ⟨rfl, rfl⟩

/-- C7 witness: enabled flag with no rollout percentage, empty userId. -/
theorem c7_full_rollout_witness :
    isUserInRollout ⟨true, none, none⟩ "" = true ∧
    useRolloutCheck (some ⟨true, none, none⟩) "" = true :=
  c7_full_rollout ⟨true, none, none⟩ "" rfl (Or.inl rfl)

/-- C8: rollout decision and variant selection are pure functions of
their arguments: evaluating twice with identical inputs yields
identical results, for the server helpers and the client helpers. -/
theorem c8_deterministic_evaluation (flag : FlagConfig) (u : String) :
    isUserInRollout flag u = isUserInRollout flag u ∧
    getUserVariant flag u = getUserVariant flag u ∧
    useRolloutCheck (some flag) u = useRolloutCheck (some flag) u ∧
    (∀ vs : List Variant, selectVariantForUser u vs = selectVariantForUser u vs) ∧
    (∀ p : Int, checkUserInRollout u p = checkUserInRollout u p) :=
  ⟨rfl, rfl, rfl, fun _ => rfl, fun _ => rfl⟩

/-- C9: for an enabled flag, the server-side `getUserVariant` and the
client-side `useABTest` path through `selectVariantForUser` agree for
every userId and variant list; and, for variant lists whose names are
non-empty as the data model requires, the common result is none exactly
when the list is absent or empty. -/
theorem c9_server_client_variant_equiv (flag : FlagConfig) (u : String)
    (he : flag.enabled = true) :
    getUserVariant flag u = useABTestVariant (some flag) u ∧
    ((∀ vs, flag.variants = some vs → ∀ v ∈ vs, v.name ≠ "") →
      (getUserVariant flag u = none ↔
        flag.variants = none ∨ flag.variants = some [])) := by
  constructor
  · cases hv : flag.variants with
    | none => simp [getUserVariant, useABTestVariant, he, hv]
    | some vs =>
      rw [getUserVariant_eq_select flag u he vs hv]
      simp [useABTestVariant, he, hv]
  · intro hn
    cases hv : flag.variants with
    | none => simp [getUserVariant, he, hv]
    | some vs =>
      cases vs with
      | nil => simp [getUserVariant, he, hv]
      | cons v rest =>
        constructor
        · intro hnone
          rw [getUserVariant_eq_select flag u he _ hv] at hnone
          exact
            absurd hnone
              (select_ne_none u v rest (hn _ hv v (List.mem_cons_self v rest)))
        · rintro (h | h) <;> simp at h

/-- C9 witness: enabled flag with variants "A"/"B" of weight 50 each,
user "user-42", whose names are non-empty. -/
theorem c9_server_client_variant_equiv_witness :
    (getUserVariant ⟨true, none, some [⟨"A", 50⟩, ⟨"B", 50⟩]⟩ "user-42" =
      useABTestVariant (some ⟨true, none, some [⟨"A", 50⟩, ⟨"B", 50⟩]⟩) "user-42") ∧
    (getUserVariant ⟨true, none, some [⟨"A", 50⟩, ⟨"B", 50⟩]⟩ "user-42" = none ↔
      (some [⟨"A", 50⟩, ⟨"B", 50⟩] : Option (List Variant)) = none ∨
        (some [⟨"A", 50⟩, ⟨"B", 50⟩] : Option (List Variant)) = some []) :=
  ⟨(c9_server_client_variant_equiv ⟨true, none, some [⟨"A", 50⟩, ⟨"B", 50⟩]⟩
      "user-42" rfl).1,
    (c9_server_client_variant_equiv ⟨true, none, some [⟨"A", 50⟩, ⟨"B", 50⟩]⟩
        "user-42" rfl).2
      (by
        intro vs hvs
        injection hvs with h
        subst h
        decide)⟩

/-- C10: when the flag is enabled, the variant list is non-empty, no
running cumulative prefix weight strictly exceeds the user's bucket,
and the first variant's name is the empty string, both selection
functions return none: the fallback `variants[0]?.name || null`
coerces the falsy empty name to null. -/
theorem c10_empty_name_fallback_none (w : Int) (rest : List Variant)
    (u : String) (rp : Option Int)
    (hmiss : ∀ k, k < (Variant.mk "" w :: rest).length →
      ¬ ((serverBucket u : Int) < weightSum ((Variant.mk "" w :: rest).take (k + 1)))) :
    getUserVariant ⟨true, rp, some (Variant.mk "" w :: rest)⟩ u = none ∧
    selectVariantForUser u (Variant.mk "" w :: rest) = none := by
  have hwalk : serverWalk (Variant.mk "" w :: rest) (serverBucket u) 0 = none := by
    apply serverWalk_eq_none
    intro k hk
    simpa using hmiss k hk
  have hclient : selectVariantForUser u (Variant.mk "" w :: rest) = none := by
    unfold selectVariantForUser
    simp only [clientBucket_eq_serverBucket, clientWalk_eq_serverWalk, hwalk]
    simp [clientFallback]
  exact ⟨by rw [getUserVariant_eq_select _ u rfl _ rfl]; exact hclient, hclient⟩

/-- C10 witness: enabled flag whose only variant has the empty name and
weight 0, empty userId with bucket 0. -/
theorem c10_empty_name_fallback_none_witness :
    getUserVariant ⟨true, none, some [⟨"", 0⟩]⟩ "" = none ∧
    selectVariantForUser "" [⟨"", 0⟩] = none :=
  c10_empty_name_fallback_none 0 [] "" none
    (by
      intro k hk
      simp only [List.length_cons, List.length_nil] at hk
      have hk0 : k = 0 := by omega
      subst hk0
      decide)

end PayloadFeatureFlags
